import Mathlib

/-!
Verification of the Elym DOM-wrapper library (src/src/elym/elym.ts) against its
natural-language specification.  The library is shallowly embedded: DOM nodes
live in a store keyed by numeric identity, callbacks and bound data values are
numeric identifiers (reference identity), and every public operation of the
`Elym` class is translated into a pure state-passing function.  Fallible
operations (the constructor path, `fromElement`, `select`, `selectAll`,
`append`, `clone`) return `Except`.
-/

set_option autoImplicit false

/-- Association-list lookup, first match wins (models JS Map/WeakMap get). -/
def alookup {α β : Type} [DecidableEq α] : List (α × β) → α → Option β
  | [], _ => none
  | (k, v) :: rest, k' => if k = k' then some v else alookup rest k'

/-- Association-list update in place, appending when the key is absent
(models JS Map.set, which keeps the insertion position of an existing key). -/
def aset {α β : Type} [DecidableEq α] : List (α × β) → α → β → List (α × β)
  | [], k, v => [(k, v)]
  | (k0, v0) :: rest, k, v =>
    if k0 = k then (k0, v) :: rest else (k0, v0) :: aset rest k v

/-- Association-list deletion (models JS Map.delete / WeakMap.delete). -/
def adelete {α β : Type} [DecidableEq α] : List (α × β) → α → List (α × β)
  | [], _ => []
  | (k0, v0) :: rest, k =>
    if k0 = k then adelete rest k else (k0, v0) :: adelete rest k

/-- Characters up to the first dot, and the remainder after that dot when a
dot exists.  Used to model JS event.split(".") as read by the source. -/
def upToDot : List Char → List Char × Option (List Char)
  | [] => ([], none)
  | c :: rest =>
    if c = '.' then ([], some rest)
    else
      let (t, r) := upToDot rest
      (c :: t, r)

/-- Model of the destructuring at elym.ts:470/499:
const [eventType, namespace] = event.split(".").  The namespace component is
parts[1] (the segment between the first and second dot); JS truthiness later
collapses an empty parts[1] to the no-namespace case, so it is mapped to
none here. -/
def splitEvent (event : String) : String × Option String :=
  let (t, r) := upToDot event.data
  match r with
  | none => (⟨t⟩, none)
  | some rest =>
    let (n, _) := upToDot rest
    (⟨t⟩, if n = [] then none else some ⟨n⟩)

/-- Model of JS String.startsWith. -/
def strStartsWith (s p : String) : Bool := List.isPrefixOf p.data s.data

/-- Model of JS String.endsWith. -/
def strEndsWith (s p : String) : Bool := List.isSuffixOf p.data s.data

/-- Callbacks are identified by their reference identity, modelled as Nat. -/
abbrev Callback := Nat

/-- A DOM element node: tag name, SVG-namespace flag, attributes, own text
content, child list (by node id), parent pointer, and the natively attached
event listeners as (event type, capture flag, callback) triples in
registration order (addEventListener ignores duplicates of the same triple,
removeEventListener with no options removes the capture=false entry). -/
structure DNode where
  tag : String
  isSVG : Bool
  attrs : List (String × String)
  text : String
  children : List Nat
  parent : Option Nat
  listeners : List (String × Bool × Callback)
  deriving DecidableEq, Repr

/-- The DOM: a store of allocated nodes keyed by identity, an allocation
counter, and the ordered list of top-level nodes attached to the document. -/
structure Dom where
  store : List (Nat × DNode)
  nextId : Nat
  doc : List Nat
  deriving DecidableEq, Repr

def Dom.find (d : Dom) (i : Nat) : Option DNode := alookup d.store i

def Dom.update (d : Dom) (i : Nat) (f : DNode → DNode) : Dom :=
  { d with store := d.store.map (fun p => if p.1 = i then (p.1, f p.2) else p) }

/-- Host addEventListener: no-op on a missing node; ignores an exact
duplicate (same type, capture and callback); otherwise appends. -/
def Dom.addListener (d : Dom) (i : Nat) (ty : String) (cb : Callback)
    (capture : Bool) : Dom :=
  match d.find i with
  | none => d
  | some n =>
    if (ty, capture, cb) ∈ n.listeners then d
    else d.update i (fun nd => { nd with listeners := nd.listeners ++ [(ty, capture, cb)] })

/-- Remove the first (ty, capture=false, cb) entry, as removeEventListener
with no options does. -/
def removeFirstListener : List (String × Bool × Callback) → String → Callback →
    List (String × Bool × Callback)
  | [], _, _ => []
  | l :: rest, ty, cb =>
    if l = (ty, false, cb) then rest else l :: removeFirstListener rest ty cb

/-- Host removeEventListener with no options (all call sites in elym.ts pass
only type and callback, so capture defaults to false). -/
def Dom.removeListener (d : Dom) (i : Nat) (ty : String) (cb : Callback) : Dom :=
  d.update i (fun nd => { nd with listeners := removeFirstListener nd.listeners ty cb })

/-- The callbacks invoked when an event of the given type is dispatched on a
node: every natively attached listener whose type matches, in registration
order. -/
def dispatched (d : Dom) (i : Nat) (ty : String) : List Callback :=
  match d.find i with
  | none => []
  | some n => (n.listeners.filter (fun l => l.1 = ty)).map (fun l => l.2.2)

/-- Host ChildNode.remove(): detach the node from its parent (if any) and
from the document top level. -/
def Dom.removeNode (d : Dom) (i : Nat) : Dom :=
  let d1 :=
    match d.find i with
    | none => d
    | some n =>
      match n.parent with
      | none => d
      | some p =>
        (d.update p (fun pn => { pn with children := pn.children.filter (fun c => c ≠ i) })).update
          i (fun nd => { nd with parent := none })
  { d1 with doc := d1.doc.filter (fun c => c ≠ i) }

/-- Host appendChild with move semantics: the child leaves its previous
parent and the document top level, then becomes the last child of the new
parent. -/
def Dom.appendChildD (d : Dom) (p c : Nat) : Dom :=
  if (d.find p).isSome && (d.find c).isSome then
    let d1 := d.removeNode c
    (d1.update c (fun nd => { nd with parent := some p })).update p
      (fun pn => { pn with children := pn.children ++ [c] })
  else d

/-- Host createElement / createElementNS: allocate a fresh, detached, empty
element. -/
def Dom.createElem (d : Dom) (tag : String) (svg : Bool) : Nat × Dom :=
  (d.nextId,
   { d with store := (d.nextId, ⟨tag, svg, [], "", [], none, []⟩) :: d.store,
            nextId := d.nextId + 1 })

/-- Preorder listing of a subtree (fuel-bounded recursion through the store;
the fuel d.nextId dominates the depth of every acyclic DOM). -/
def collectTree (d : Dom) : Nat → Nat → List Nat
  | 0, _ => []
  | fuel + 1, i =>
    match d.find i with
    | none => []
    | some n => i :: (n.children.map (collectTree d fuel)).flatten

/-- Selector matching: the embedding models tag-name selectors, the fragment
of CSS needed by the claims (a node matches the selector naming its tag). -/
def matchesSel (d : Dom) (i : Nat) (sel : String) : Bool :=
  match d.find i with
  | none => false
  | some n => n.tag = sel

/-- Host root.querySelectorAll(sel): the descendants of the root (the root
itself excluded), in document order, filtered by the selector. -/
def querySubtree (d : Dom) (root : Nat) (sel : String) : List Nat :=
  match d.find root with
  | none => []
  | some n => ((n.children.map (collectTree d d.nextId)).flatten).filter
      (fun i => matchesSel d i sel)

/-- Host document.querySelectorAll(sel): all nodes of the attached trees in
document order, filtered by the selector. -/
def docQuery (d : Dom) (sel : String) : List Nat :=
  ((d.doc.map (collectTree d d.nextId)).flatten).filter (fun i => matchesSel d i sel)

/-- The text content of a node: its own text followed by that of its
children (fuel-bounded). -/
def textContentD (d : Dom) : Nat → Nat → String
  | 0, _ => ""
  | fuel + 1, i =>
    match d.find i with
    | none => ""
    | some n => n.text ++ String.join (n.children.map (textContentD d fuel))

def textContentOf (d : Dom) (i : Nat) : String := textContentD d (d.nextId + 1) i

def serializeAttrs : List (String × String) → String
  | [] => ""
  | (k, v) :: rest => " " ++ k ++ "=" ++ v ++ serializeAttrs rest

/-- Serialized markup of a node (models Element.outerHTML, fuel-bounded). -/
def serializeStr (d : Dom) : Nat → Nat → String
  | 0, _ => ""
  | fuel + 1, i =>
    match d.find i with
    | none => ""
    | some n =>
      "<" ++ n.tag ++ serializeAttrs n.attrs ++ ">" ++ n.text ++
        String.join (n.children.map (serializeStr d fuel)) ++ "</" ++ n.tag ++ ">"

def outerHTMLOf (d : Dom) (i : Nat) : String := serializeStr d (d.nextId + 1) i

/-- Element.innerHTML: the serialized content of the node (own text followed
by the markup of the children). -/
def innerHTMLOf (d : Dom) (i : Nat) : String :=
  match d.find i with
  | none => ""
  | some n => n.text ++ String.join (n.children.map (serializeStr d d.nextId))

/-- The structured result of the host parsers (DOMParser / Range.
createContextualFragment): an element tree.  The embedding receives parser
output in structured form; the parser itself is the host collaborator the
spec leaves external. -/
inductive ElementTree : Type where
  | node (tag : String) (isSVG : Bool) (attrs : List (String × String))
         (text : String) (children : List ElementTree)

def ElementTree.tagOf : ElementTree → String
  | .node t _ _ _ _ => t

/-- A markup string together with what the host parser yields for it:
svgT means the trimmed string starts with "<svg" (elym.ts:32) and carries
the documentElement the SVG parser produced (none when parsing failed);
htmlT carries the fragment parse result fragment.firstElementChild
(elym.ts:43-45), none when the fragment has no element child. -/
inductive Template : Type where
  | svgT (docElement : Option ElementTree)
  | htmlT (firstElementChild : Option ElementTree)

mutual
/-- Materialize a parsed element tree in the DOM store, returning the root
id (children are allocated first, then linked to the parent). -/
def instantiateT : ElementTree → Dom → Nat × Dom
  | .node tag svg attrs txt cs, d =>
    let (cids, d1) := instantiateList cs d
    let i := d1.nextId
    let d2 : Dom :=
      { store := (i, ⟨tag, svg, attrs, txt, cids, none, []⟩) :: d1.store,
        nextId := i + 1, doc := d1.doc }
    (i, cids.foldl (fun dd c => dd.update c (fun nd => { nd with parent := some i })) d2)

def instantiateList : List ElementTree → Dom → List Nat × Dom
  | [], d => ([], d)
  | t :: ts, d =>
    let (i, d1) := instantiateT t d
    let (is, d2) := instantiateList ts d1
    (i :: is, d2)
end

/-- Read a subtree back out of the DOM as a parse tree (models reading
outerHTML and re-parsing it, which round-trips the structure).
Fuel-bounded like the other store recursions. -/
def serializeTree (d : Dom) : Nat → Nat → ElementTree
  | 0, _ => .node "" false [] "" []
  | fuel + 1, i =>
    match d.find i with
    | none => .node "" false [] "" []
    | some n => .node n.tag n.isSVG n.attrs n.text (n.children.map (serializeTree d fuel))

/-- Error taxonomy of the spec (section 7); the code throws plain Error with
these messages, plus a host TypeError where it dereferences undefined. -/
inductive Err : Type where
  | parseError (msg : String)
  | invalidArgument (msg : String)
  | notFound (msg : String)
  | typeError (msg : String)
  deriving DecidableEq, Repr

/-- The state of one Elym instance: its identity, root node, current
selection, and the two per-instance WeakMaps (listener registry:
node -> event key -> callbacks in call order; data registry: node -> value,
values being identifiers like callbacks). -/
structure ElymState where
  id : Nat
  root : Nat
  nodes : List Nat
  eventListeners : List (Nat × List (String × List Callback))
  data : List (Nat × Nat)
  deriving DecidableEq, Repr

/-- Global state: the DOM, the process-wide Elym.instances registry
(node id -> instance id), and the instance-identity counter. -/
structure St where
  dom : Dom
  instances : List (Nat × Nat)
  nextElym : Nat
  deriving DecidableEq, Repr

/-- Elym.createFromTemplate (elym.ts:27-53): SVG path requires the parsed
documentElement to exist with tag "svg"; HTML path requires a first element
child. -/
def createFromTemplate (tpl : Template) (d : Dom) : Except Err (Nat × Dom) :=
  match tpl with
  | .svgT none => .error (.parseError "Invalid SVG: No valid SVG element found")
  | .svgT (some t) =>
    if t.tagOf = "svg" then .ok (instantiateT t d)
    else .error (.parseError "Invalid SVG: No valid SVG element found")
  | .htmlT none => .error (.parseError "Invalid HTML: No valid element found")
  | .htmlT (some t) => .ok (instantiateT t d)

/-- The constructor (elym.ts:123-136): createFromTemplate, then the
instanceof HTMLElement / SVGSVGElement check (an SVG-namespaced root passes
only when its tag is svg), then root and selection are set and the root is
registered in Elym.instances. -/
def constructS (tpl : Template) (st : St) : Except Err (ElymState × St) :=
  match createFromTemplate tpl st.dom with
  | .error e => .error e
  | .ok (rootId, d1) =>
    match d1.find rootId with
    | none => .error (.parseError "Invalid root element created")
    | some rn =>
      if rn.isSVG && !(rn.tag = "svg") then
        .error (.parseError "Invalid root element created")
      else
        .ok (⟨st.nextElym, rootId, [rootId], [], []⟩,
             { dom := d1,
               instances := aset st.instances rootId st.nextElym,
               nextElym := st.nextElym + 1 })

/-- The template literal "<div></div>" used by fromElement for its temporary
root (elym.ts:106). -/
def divTpl : Template := .htmlT (some (.node "div" false [] "" []))

/-- Elym.fromElement (elym.ts:102-111): reject an empty element list, build
a temporary instance from "<div></div>", then point it at the given
elements and register every one of them in Elym.instances. -/
def fromElementS (els : List Nat) (st : St) : Except Err (ElymState × St) :=
  match els with
  | [] => .error (.invalidArgument "At least one element must be provided")
  | e0 :: _ =>
    match constructS divTpl st with
    | .error e => .error e
    | .ok (inst, st1) =>
      .ok ({ inst with root := e0, nodes := els },
           { st1 with
              instances := els.foldl (fun m n => aset m n inst.id) st1.instances })

/-- Elym.select (elym.ts:65-71): document.querySelector, NotFound on a miss,
otherwise wrap through fromElement. -/
def selectS (sel : String) (st : St) : Except Err (ElymState × St) :=
  match docQuery st.dom sel with
  | [] => .error (.notFound ("No element found for selector: " ++ sel))
  | e :: _ => fromElementS [e] st

/-- Elym.selectAll (elym.ts:85-88): wrap every document match through
fromElement (the empty match list is forwarded as-is). -/
def selectAllS (sel : String) (st : St) : Except Err (ElymState × St) :=
  fromElementS (docQuery st.dom sel) st

/-- Elym.getInstance (elym.ts:152-154): registry lookup, null on a miss. -/
def getInstanceS (st : St) (n : Nat) : Option Nat := alookup st.instances n

/-- selectChild (elym.ts:218-224): first subtree match replaces the
selection; no match leaves the selection as it was. -/
def selectChildOp (w : ElymState) (d : Dom) (sel : String) : ElymState :=
  match querySubtree d w.root sel with
  | [] => w
  | e :: _ => { w with nodes := [e] }

/-- selectChildren (elym.ts:238-243): the subtree match list replaces the
selection wholesale, with no emptiness guard. -/
def selectChildrenOp (w : ElymState) (d : Dom) (sel : String) : ElymState :=
  { w with nodes := querySubtree d w.root sel }

/-- text (elym.ts:285-294).  The implementation branches on JS truthiness of
the argument (if (!value)), so both the no-argument call and the empty
string take the getter path, which reads the first selected node; the
setter path assigns textContent on every selected node (clearing children,
as the host textContent setter does) and returns the instance. -/
def textOp (w : ElymState) (d : Dom) (value : Option String) :
    (String ⊕ ElymState) × Dom :=
  if value = none ∨ value = some "" then
    match w.nodes with
    | [] => (Sum.inl "", d)
    | n :: _ => (Sum.inl (textContentOf d n), d)
  else
    match value with
    | some v =>
      (Sum.inr w,
       w.nodes.foldl (fun dd n => dd.update n (fun nd => { nd with text := v, children := [] })) d)
    | none => (Sum.inr w, d)

/-- html with no argument (elym.ts:433-435): the innerHTML of every selected
node joined with the empty separator. -/
def htmlGet (w : ElymState) (d : Dom) : String :=
  String.join (w.nodes.map (innerHTMLOf d))

/-- on (elym.ts:465-481): split the event spec once, natively attach the
callback for the bare type on every selected node (options modelled by the
capture flag, default false), and append the callback to the registry list
under the compound key (or bare type when no namespace). -/
def onOp (w : ElymState) (d : Dom) (event : String) (cb : Callback)
    (options : Bool) : ElymState × Dom :=
  let (eventType, nsOpt) := splitEvent event
  let eventKey :=
    match nsOpt with
    | some ns => eventType ++ "." ++ ns
    | none => eventType
  w.nodes.foldl
    (fun acc n =>
      let (we, dd) := acc
      let dd1 := dd.addListener n eventType cb options
      let m := (alookup we.eventListeners n).getD []
      let m1 := aset m eventKey (((alookup m eventKey).getD []) ++ [cb])
      ({ we with eventListeners := aset we.eventListeners n m1 }, dd1))
    (w, d)

/-- off (elym.ts:498-526).  With a namespace, every registry key that starts
with "type." and ends with ".namespace" is detached (removeEventListener
with the bare type) and deleted; without one, only the exact bare key is
detached and deleted; a node with no registry map is skipped. -/
def offOp (w : ElymState) (d : Dom) (event : String) : ElymState × Dom :=
  let (eventType, nsOpt) := splitEvent event
  w.nodes.foldl
    (fun acc n =>
      let (we, dd) := acc
      match alookup we.eventListeners n with
      | none => (we, dd)
      | some m =>
        match nsOpt with
        | some ns =>
          let isMatch := fun (k : String) =>
            strStartsWith k (eventType ++ ".") && strEndsWith k ("." ++ ns)
          let dd1 := (m.filter (fun kv => isMatch kv.1)).foldl
            (fun da (kv : String × List Callback) => kv.2.foldl (fun db cb => db.removeListener n eventType cb) da) dd
          let m1 := m.filter (fun kv => !(isMatch kv.1))
          ({ we with eventListeners := aset we.eventListeners n m1 }, dd1)
        | none =>
          let dd1 := ((alookup m eventType).getD []).foldl
            (fun da cb => da.removeListener n eventType cb) dd
          ({ we with eventListeners := aset we.eventListeners n (adelete m eventType) }, dd1))
    (w, d)

/-- remove (elym.ts:768-783): for every selected node, call
removeEventListener once per registry entry -- passing the registry KEY as
the event type, exactly as the source does -- then drop the node from the
listener registry and from Elym.instances, and detach it from the DOM.
The data registry is not touched (the source never deletes from #data). -/
def removeOp (w : ElymState) (st : St) : ElymState × St :=
  let (els, st') := w.nodes.foldl
    (fun acc n =>
      let (evl, s) := acc
      let dom1 :=
        match alookup evl n with
        | none => s.dom
        | some m =>
          m.foldl (fun da (kv : String × List Callback) => kv.2.foldl (fun db cb => db.removeListener n kv.1 cb) da) s.dom
      (adelete evl n,
       { dom := dom1.removeNode n, instances := adelete s.instances n,
         nextElym := s.nextElym }))
    (w.eventListeners, st)
  ({ w with eventListeners := els }, st')

/-- One iteration of the clone forEach body (elym.ts:802-823) for original
node n paired with clone._nodes[index] (cnOpt): re-attach every registered
callback on the clone node -- with the registry KEY as the event type,
exactly as the source calls addEventListener -- copy the registry map, then
copy the bound data value.  Dereferencing a missing pair partner is the
host TypeError. -/
def cloneStep (w : ElymState) (n : Nat) (cnOpt : Option Nat) (c : ElymState)
    (st : St) : Except Err (ElymState × St) :=
  let step1 : Except Err (ElymState × St) :=
    match alookup w.eventListeners n with
    | none => .ok (c, st)
    | some m =>
      match cnOpt with
      | none => .error (.typeError "Cannot read properties of undefined")
      | some cn =>
        let dom1 :=
          m.foldl (fun da (kv : String × List Callback) => kv.2.foldl (fun db cb => db.addListener cn kv.1 cb false) da)
            st.dom
        .ok ({ c with eventListeners := aset c.eventListeners cn m },
             { st with dom := dom1 })
  match step1 with
  | .error e => .error e
  | .ok (c1, st1) =>
    match alookup w.data n with
    | none => .ok (c1, st1)
    | some v =>
      match cnOpt with
      | none => .error (.typeError "Cannot read properties of undefined")
      | some cn => .ok ({ c1 with data := aset c1.data cn v }, st1)

def cloneLoop (w : ElymState) : List Nat → Nat → ElymState → St →
    Except Err (ElymState × St)
  | [], _, c, st => .ok (c, st)
  | n :: rest, idx, c, st =>
    match cloneStep w n (c.nodes.get? idx) c st with
    | .error e => .error e
    | .ok (c1, st1) => cloneLoop w rest (idx + 1) c1 st1

/-- clone (elym.ts:800-826): construct a fresh instance from the serialized
root markup (re-entering the constructor, including its SVG-prefix check on
the serialized string), then run the forEach body pairing this._nodes with
clone._nodes positionally. -/
def cloneOp (w : ElymState) (st : St) : Except Err (ElymState × St) :=
  let tree := serializeTree st.dom st.dom.nextId w.root
  let tpl :=
    if strStartsWith ("<" ++ tree.tagOf) "<svg" then Template.svgT (some tree)
    else Template.htmlT (some tree)
  match constructS tpl st with
  | .error e => .error e
  | .ok (c0, st1) => cloneLoop w w.nodes 0 c0 st1

def appendLoop (tag : String) : List Nat → Dom → List Nat × Dom
  | [], d => ([], d)
  | n :: rest, d =>
    let svg :=
      match d.find n with
      | some nd => nd.isSVG
      | none => false
    let (e, d1) := d.createElem tag svg
    let d2 := d1.appendChildD n e
    let (es, d3) := appendLoop tag rest d2
    (e :: es, d3)

/-- append (elym.ts:307-324): synthesize one element per selected node
(SVG-namespaced when the parent is an SVG element), append each as a child
of its parent, and wrap the new elements via fromElement. -/
def appendOp (w : ElymState) (tag : String) (st : St) : Except Err (ElymState × St) :=
  let (es, d') := appendLoop tag w.nodes st.dom
  fromElementS es { st with dom := d' }

def dataBind (m : List (Nat × Nat)) : List Nat → List Nat → List (Nat × Nat)
  | _, [] => m
  | [], _ => m
  | n :: ns, v :: vs => dataBind (aset m n v) ns vs

/-- data (elym.ts:905-916): bind dataset[i] to the node at index i while
i < dataset.length (zip-shortest).  The optional synchronous callback only
feeds values back to the caller and is not modelled. -/
def dataOp (w : ElymState) (dataset : List Nat) : ElymState :=
  { w with data := dataBind w.data w.nodes dataset }

/-- getData (elym.ts:962-964): WeakMap get, undefined (none) on a miss. -/
def getDataOp (w : ElymState) (n : Nat) : Option Nat := alookup w.data n

instance {ε α : Type} [DecidableEq ε] [DecidableEq α] : DecidableEq (Except ε α) := fun a b =>
  match a, b with
  | .ok x, .ok y => if h : x = y then .isTrue (by rw [h]) else .isFalse (by simp [h])
  | .error x, .error y => if h : x = y then .isTrue (by rw [h]) else .isFalse (by simp [h])
  | .ok _, .error _ => .isFalse (by simp)
  | .error _, .ok _ => .isFalse (by simp)

def Dom.wf (d : Dom) : Prop :=
  (∀ p ∈ d.store, p.1 < d.nextId) ∧ (∀ i ∈ d.doc, i < d.nextId)

/-- Spec-side mirror of section 4.1: a template yields a valid root element
when the SVG parse produced a documentElement whose tag is svg, or the HTML
fragment has a first element child. -/
def templateValid : Template → Bool
  | .svgT none => false
  | .svgT (some t) => t.tagOf = "svg"
  | .htmlT none => false
  | .htmlT (some _) => true

/-- A small heap of arrays: the selection array of a wrapper lives at a
reference, so the aliasing consequence of returning a fresh copy is
expressible. -/
structure ArrayHeap where
  cells : List (Nat × List Nat)
  next : Nat
  deriving DecidableEq, Repr

def heapGet (h : ArrayHeap) (r : Nat) : List Nat := (alookup h.cells r).getD []

def heapSet (h : ArrayHeap) (r : Nat) (v : List Nat) : ArrayHeap :=
  { h with cells := aset h.cells r v }

def nodesAllocOp (h : ArrayHeap) (selRef : Nat) : Nat × ArrayHeap :=
  (h.next, ⟨(h.next, heapGet h selRef) :: h.cells, h.next + 1⟩)


/-! Concrete scenario states, each reachable through the public API from a
host document state. -/

/-- The empty host state: empty DOM and registries. -/
def st0 : St := ⟨⟨[], 0, []⟩, [], 0⟩

/-- The wrapper produced by constructing from the markup div template on the
empty state. -/
def wDiv : ElymState := ⟨0, 0, [0], [], []⟩

/-- The DOM after that construction: a single detached div. -/
def domDiv : Dom := ⟨[(0, ⟨"div", false, [], "", [], none, []⟩)], 1, []⟩

/-- The global state after that construction. -/
def stDiv : St := ⟨domDiv, [(0, 0)], 1⟩

/-- A host document holding two divs with text content a and b. -/
def domAB : Dom :=
  ⟨[(0, ⟨"div", false, [], "a", [], none, []⟩),
    (1, ⟨"div", false, [], "b", [], none, []⟩)], 2, [0, 1]⟩

def stAB : St := ⟨domAB, [], 0⟩

/-- A host document with a section whose child div (node 0) is attached. -/
def domP : Dom :=
  ⟨[(0, ⟨"div", false, [], "", [], some 1, []⟩),
    (1, ⟨"section", false, [], "", [0], none, []⟩)], 2, [1]⟩

/-- The wrapper produced by fromElement on the attached div. -/
def wP : ElymState := ⟨0, 0, [0], [], []⟩

/-- The global state after that fromElement call (its temporary root div is
node 2, left allocated and registered, as in the source). -/
def stP : St :=
  ⟨⟨(2, ⟨"div", false, [], "", [], none, []⟩) :: domP.store, 3, [1]⟩,
   [(2, 0), (0, 0)], 1⟩


/-! Reachability of the concrete scenarios through the public API. -/

theorem div_scenario_reachable : constructS divTpl st0 = .ok (wDiv, stDiv) := by decide

theorem attached_scenario_reachable : fromElementS [0] ⟨domP, [], 0⟩ = .ok (wP, stP) := by
  decide


/-! Generic lemmas about the JS-map and DOM-store helpers. -/

theorem alookup_nil {α β : Type} [DecidableEq α] (k : α) :
    alookup ([] : List (α × β)) k = none := rfl

theorem alookup_map_ite {β : Type} (l : List (Nat × β)) (i j : Nat) (f : β → β) :
    alookup (l.map fun p => if p.1 = i then (p.1, f p.2) else p) j =
      if i = j then (alookup l j).map f else alookup l j := by
  induction l with
  | nil => cases Decidable.em (i = j) <;> simp_all [alookup]
  | cons p rest ih =>
    obtain ⟨k, v⟩ := p
    simp only [List.map_cons]
    by_cases hk : k = i
    · rw [if_pos hk]
      subst hk
      by_cases hj : k = j
      · subst hj; simp [alookup, ih]
      · simp only [alookup, hj, if_neg hj, ih]
        by_cases hij : k = j
        · exact absurd hij hj
        · simp [hij]
    · rw [if_neg hk]
      by_cases hj : k = j
      · subst hj
        have hik : i ≠ k := fun h => hk h.symm
        simp [alookup, hik]
      · simp [alookup, hj, ih]

theorem Dom.find_update_self (d : Dom) (i : Nat) (f : DNode → DNode) :
    (d.update i f).find i = (d.find i).map f := by
  simp [Dom.find, Dom.update, alookup_map_ite]

theorem Dom.find_update_ne (d : Dom) (i j : Nat) (f : DNode → DNode) (h : i ≠ j) :
    (d.update i f).find j = d.find j := by
  simp [Dom.find, Dom.update, alookup_map_ite, h]

theorem removeFirst_append_of_not_mem (L : List (String × Bool × Callback))
    (t : String) (cb : Callback) (h : (t, false, cb) ∉ L) :
    removeFirstListener (L ++ [(t, false, cb)]) t cb = L := by
  induction L with
  | nil => simp [removeFirstListener]
  | cons l rest ih =>
    simp only [List.mem_cons, not_or] at h
    simp [removeFirstListener, Ne.symm h.1, ih h.2]

/-! String lemmas for the event-spec split. -/

theorem upToDot_no_dot (l : List Char) (h : '.' ∉ l) : upToDot l = (l, none) := by
  induction l with
  | nil => rfl
  | cons c rest ih =>
    simp only [List.mem_cons, not_or] at h
    simp [upToDot, Ne.symm h.1, ih h.2]

theorem upToDot_append (l1 l2 : List Char) (h : '.' ∉ l1) :
    upToDot (l1 ++ '.' :: l2) = (l1, some l2) := by
  induction l1 with
  | nil => simp [upToDot]
  | cons c rest ih =>
    simp only [List.mem_cons, not_or] at h
    simp [upToDot, Ne.symm h.1, ih h.2]

theorem data_ne_nil_of_ne_empty (s : String) (h : s ≠ "") : s.data ≠ [] := by
  intro hd
  apply h
  cases s
  simp_all

theorem splitEvent_no_dot (t : String) (h : '.' ∉ t.data) : splitEvent t = (t, none) := by
  simp [splitEvent, upToDot_no_dot t.data h]

theorem splitEvent_compound (t ns : String) (ht : '.' ∉ t.data) (hns : '.' ∉ ns.data)
    (hne : ns ≠ "") : splitEvent (t ++ "." ++ ns) = (t, some ns) := by
  have hdata : (t ++ "." ++ ns).data = t.data ++ '.' :: ns.data := by
    simp [String.data_append]
  simp [splitEvent, hdata, upToDot_append t.data ns.data ht, upToDot_no_dot ns.data hns,
    data_ne_nil_of_ne_empty ns hne]

theorem key_ne_bare (t ns : String) : t ++ "." ++ ns ≠ t := by
  intro h
  have := congrArg (fun s => s.data.length) h
  simp [String.data_append] at this

theorem startsWith_key (t ns : String) : strStartsWith (t ++ "." ++ ns) (t ++ ".") = true := by
  simp only [strStartsWith, String.data_append]
  rw [List.isPrefixOf_iff_prefix]
  exact List.prefix_append _ _

theorem endsWith_key (t ns : String) : strEndsWith (t ++ "." ++ ns) ("." ++ ns) = true := by
  simp only [strEndsWith, String.data_append, List.append_assoc]
  rw [List.isSuffixOf_iff_suffix]
  exact List.suffix_append _ _

/-- Claim C2: for a node with no prior registration of the callback, after
on("type.ns", cb): off("type") removes and detaches only callbacks under the
exact bare key (here none), leaving cb registered under "type.ns" and still
invoked on dispatch of "type"; off("type.ns") removes every key matching the
prefix "type." and suffix ".ns" and detaches cb, so it is no longer invoked;
and off on a wrapper with no registrations is a silent no-op for any event
spec. -/
theorem elym_C2_off_bare_vs_namespaced
    (d : Dom) (w : ElymState) (n : Nat) (nd : DNode) (t ns : String) (cb : Callback)
    (hsel : w.nodes = [n]) (hreg : w.eventListeners = [])
    (hnd : d.find n = some nd)
    (hfresh : ∀ c : Bool, (t, c, cb) ∉ nd.listeners)
    (ht : '.' ∉ t.data) (hns : '.' ∉ ns.data) (hnse : ns ≠ "") :
    (let p1 := onOp w d (t ++ "." ++ ns) cb false
     let pA := offOp p1.1 p1.2 t
     pA = p1 ∧
     alookup pA.1.eventListeners n = some [(t ++ "." ++ ns, [cb])] ∧
     cb ∈ dispatched pA.2 n t) ∧
    (let p1 := onOp w d (t ++ "." ++ ns) cb false
     let pB := offOp p1.1 p1.2 (t ++ "." ++ ns)
     alookup pB.1.eventListeners n = some [] ∧
     cb ∉ dispatched pB.2 n t) ∧
    (∀ ev, offOp w d ev = (w, d)) := by
  have hkey := splitEvent_compound t ns ht hns hnse
  have hbare := splitEvent_no_dot t ht
  have hkne := key_ne_bare t ns
  have hp1 : onOp w d (t ++ "." ++ ns) cb false =
      ({ w with eventListeners := [(n, [(t ++ "." ++ ns, [cb])])] },
       d.addListener n t cb false) := by
    simp [onOp, hkey, hsel, hreg, alookup, aset]
  have hd1 : (d.addListener n t cb false).find n =
      some { nd with listeners := nd.listeners ++ [(t, false, cb)] } := by
    simp [Dom.addListener, hnd, hfresh false, Dom.find_update_self]
  refine ⟨?_, ?_, ?_⟩
  · have hA : offOp ({ w with eventListeners := [(n, [(t ++ "." ++ ns, [cb])])] } : ElymState)
        (d.addListener n t cb false) t =
        ({ w with eventListeners := [(n, [(t ++ "." ++ ns, [cb])])] },
         d.addListener n t cb false) := by
      simp [offOp, hbare, hsel, alookup, aset, adelete, hkne]
    simp only [hp1, hA]
    refine ⟨trivial, ?_, ?_⟩
    · simp [alookup]
    · simp only [dispatched, hd1]
      refine List.mem_map.mpr ⟨(t, false, cb), List.mem_filter.mpr ⟨by simp, by simp⟩, rfl⟩
  · have hsw := startsWith_key t ns
    have hew := endsWith_key t ns
    have hB : offOp ({ w with eventListeners := [(n, [(t ++ "." ++ ns, [cb])])] } : ElymState)
        (d.addListener n t cb false) (t ++ "." ++ ns) =
        ({ w with eventListeners := [(n, [])] },
         (d.addListener n t cb false).removeListener n t cb) := by
      simp [offOp, hkey, hsel, alookup, aset, hsw, hew]
    simp only [hp1, hB]
    refine ⟨by simp [alookup], ?_⟩
    have hd3 : ((d.addListener n t cb false).removeListener n t cb).find n = some nd := by
      simp [Dom.removeListener, Dom.find_update_self, hd1,
        removeFirst_append_of_not_mem nd.listeners t cb (hfresh false)]
    intro hmem
    simp only [dispatched, hd3] at hmem
    obtain ⟨x, hxf, hx2⟩ := List.mem_map.mp hmem
    obtain ⟨hxl, hxt⟩ := List.mem_filter.mp hxf
    apply hfresh x.2.1
    have hx1 : x.1 = t := by simpa using hxt
    have : (t, x.2.1, cb) = x := by
      obtain ⟨a, b, c⟩ := x
      simp_all
    rw [this]
    exact hxl
  · intro ev
    simp [offOp, hsel, hreg, alookup]

/-! Well-formedness of the DOM store and frame lemmas for append. -/

theorem alookup_mem {α β : Type} [DecidableEq α] (l : List (α × β)) (k : α) (v : β)
    (h : alookup l k = some v) : (k, v) ∈ l := by
  induction l with
  | nil => simp [alookup] at h
  | cons p rest ih =>
    obtain ⟨k0, v0⟩ := p
    by_cases hk : k0 = k
    · subst hk
      simp [alookup] at h
      simp [h]
    · simp [alookup, hk] at h
      simp [ih h]

theorem Dom.find_lt_of_wf (d : Dom) (j : Nat) (nd : DNode) (hwf : d.wf)
    (h : d.find j = some nd) : j < d.nextId :=
  hwf.1 (j, nd) (alookup_mem d.store j nd h)

theorem alookup_cons_ne {α β : Type} [DecidableEq α] (l : List (α × β)) (k j : α) (v : β)
    (h : k ≠ j) : alookup ((k, v) :: l) j = alookup l j := by
  simp [alookup, h]

theorem Dom.find_createElem_self (d : Dom) (tag : String) (svg : Bool) :
    (d.createElem tag svg).2.find d.nextId = some ⟨tag, svg, [], "", [], none, []⟩ := by
  simp [Dom.createElem, Dom.find, alookup]

theorem Dom.find_createElem_ne (d : Dom) (tag : String) (svg : Bool) (j : Nat)
    (h : j ≠ d.nextId) : (d.createElem tag svg).2.find j = d.find j := by
  simp [Dom.createElem, Dom.find, alookup, Ne.symm h]

theorem Dom.wf_update (d : Dom) (i : Nat) (f : DNode → DNode) (h : d.wf) :
    (d.update i f).wf := by
  constructor
  · intro p hp
    simp only [Dom.update, List.mem_map] at hp
    obtain ⟨q, hq, hqe⟩ := hp
    have hlt := h.1 q hq
    have h1 : p.1 = q.1 := by
      by_cases hqi : q.1 = i <;> simp [hqi] at hqe <;> simp [← hqe, hqi]
    simp only [Dom.update]
    rw [h1]
    exact hlt
  · exact h.2

theorem Dom.wf_createElem (d : Dom) (tag : String) (svg : Bool) (h : d.wf) :
    (d.createElem tag svg).2.wf := by
  constructor
  · intro p hp
    simp only [Dom.createElem] at hp
    rcases List.mem_cons.mp hp with he | hm
    · simp [Dom.createElem, he]
    · have := h.1 p hm
      simp [Dom.createElem]
      omega
  · intro i hi
    have := h.2 i hi
    simp [Dom.createElem]
    omega

theorem Dom.removeNode_fresh (d : Dom) (c : Nat) (nd : DNode)
    (hc : d.find c = some nd) (hp : nd.parent = none) (hdoc : c ∉ d.doc) :
    d.removeNode c = d := by
  have hfilter : d.doc.filter (fun x => !decide (x = c)) = d.doc := by
    rw [List.filter_eq_self]
    intro a ha
    simp
    intro hac
    exact hdoc (hac ▸ ha)
  simp [Dom.removeNode, hc, hp, hfilter]

theorem Dom.appendChild_eq (d : Dom) (n e : Nat) (nd en : DNode)
    (hn : d.find n = some nd) (he : d.find e = some en) (hp : en.parent = none)
    (hdoc : e ∉ d.doc) (_hne : n ≠ e) :
    d.appendChildD n e =
      ((d.update e fun x => { x with parent := some n }).update n
        fun x => { x with children := x.children ++ [e] }) := by
  simp [Dom.appendChildD, hn, he, Dom.removeNode_fresh d e en he hp hdoc]

theorem Dom.appendChild_find_child (d : Dom) (n e : Nat) (nd en : DNode)
    (hn : d.find n = some nd) (he : d.find e = some en) (hp : en.parent = none)
    (hdoc : e ∉ d.doc) (hne : n ≠ e) :
    (d.appendChildD n e).find e = some { en with parent := some n } := by
  rw [Dom.appendChild_eq d n e nd en hn he hp hdoc hne]
  rw [Dom.find_update_ne _ n e _ (by exact hne)]
  rw [Dom.find_update_self, he]
  rfl

theorem Dom.appendChild_find_parent (d : Dom) (n e : Nat) (nd en : DNode)
    (hn : d.find n = some nd) (he : d.find e = some en) (hp : en.parent = none)
    (hdoc : e ∉ d.doc) (hne : n ≠ e) :
    (d.appendChildD n e).find n = some { nd with children := nd.children ++ [e] } := by
  rw [Dom.appendChild_eq d n e nd en hn he hp hdoc hne]
  rw [Dom.find_update_self]
  rw [Dom.find_update_ne _ e n _ (Ne.symm hne), hn]
  rfl

theorem Dom.appendChild_find_other (d : Dom) (n e j : Nat) (nd en : DNode)
    (hn : d.find n = some nd) (he : d.find e = some en) (hp : en.parent = none)
    (hdoc : e ∉ d.doc) (hne : n ≠ e) (hj1 : j ≠ n) (hj2 : j ≠ e) :
    (d.appendChildD n e).find j = d.find j := by
  rw [Dom.appendChild_eq d n e nd en hn he hp hdoc hne]
  rw [Dom.find_update_ne _ n j _ (Ne.symm hj1), Dom.find_update_ne _ e j _ (Ne.symm hj2)]

theorem Dom.appendChild_nextId (d : Dom) (n e : Nat) :
    (d.appendChildD n e).nextId = d.nextId := by
  simp only [Dom.appendChildD]
  split
  · simp [Dom.update, Dom.removeNode]
    split <;> (try split) <;> simp [Dom.update]
  · rfl

theorem Dom.appendChild_doc (d : Dom) (n e : Nat) (nd en : DNode)
    (hn : d.find n = some nd) (he : d.find e = some en) (hp : en.parent = none)
    (hdoc : e ∉ d.doc) (hne : n ≠ e) :
    (d.appendChildD n e).doc = d.doc := by
  rw [Dom.appendChild_eq d n e nd en hn he hp hdoc hne]
  simp [Dom.update]

theorem Dom.appendChild_wf (d : Dom) (n e : Nat) (nd en : DNode)
    (hn : d.find n = some nd) (he : d.find e = some en) (hp : en.parent = none)
    (hdoc : e ∉ d.doc) (hne : n ≠ e) (hwf : d.wf) :
    (d.appendChildD n e).wf := by
  rw [Dom.appendChild_eq d n e nd en hn he hp hdoc hne]
  exact Dom.wf_update _ _ _ (Dom.wf_update _ _ _ hwf)

theorem appendLoop_spec (tag : String) :
    ∀ (ns : List Nat) (d : Dom), d.wf →
      (∀ n ∈ ns, (d.find n).isSome = true) →
      (appendLoop tag ns d).1 = List.range' d.nextId ns.length ∧
      (appendLoop tag ns d).2.nextId = d.nextId + ns.length ∧
      (appendLoop tag ns d).2.wf ∧
      (∀ j nd, d.find j = some nd → ∃ extra,
        (appendLoop tag ns d).2.find j = some { nd with children := nd.children ++ extra }) ∧
      (∀ i, (hi : i < ns.length) →
        (∃ nnd, (appendLoop tag ns d).2.find (d.nextId + i) = some nnd ∧
          nnd.tag = tag ∧
          nnd.isSVG = ((d.find (ns.get ⟨i, hi⟩)).map DNode.isSVG).getD false ∧
          nnd.parent = some (ns.get ⟨i, hi⟩)) ∧
        (∃ pnd, (appendLoop tag ns d).2.find (ns.get ⟨i, hi⟩) = some pnd ∧
          (d.nextId + i) ∈ pnd.children)) := by
  intro ns
  induction ns with
  | nil =>
    intro d hwf hlive
    refine ⟨rfl, rfl, hwf, ?_, ?_⟩
    · intro j nd h
      exact ⟨[], by simpa [appendLoop] using h⟩
    · intro i hi
      exact absurd hi (by simp)
  | cons n rest ih =>
    intro d hwf hlive
    obtain ⟨nd, hnd⟩ := Option.isSome_iff_exists.mp (hlive n (by simp))
    have hnlt : n < d.nextId := Dom.find_lt_of_wf d n nd hwf hnd
    -- the freshly created element
    set e := d.nextId with he_def
    set fresh : DNode := ⟨tag, nd.isSVG, [], "", [], none, []⟩ with hfresh_def
    set d1 := (d.createElem tag nd.isSVG).2 with hd1_def
    have hd1_nextId : d1.nextId = d.nextId + 1 := by simp [hd1_def, Dom.createElem]
    have hd1_find_e : d1.find e = some fresh := Dom.find_createElem_self d tag nd.isSVG
    have hd1_find_ne : ∀ j, j ≠ e → d1.find j = d.find j := fun j hj =>
      Dom.find_createElem_ne d tag nd.isSVG j hj
    have hd1_doc : d1.doc = d.doc := by simp [hd1_def, Dom.createElem]
    have hd1_wf : d1.wf := Dom.wf_createElem d tag nd.isSVG hwf
    have hne : n ≠ e := Nat.ne_of_lt hnlt
    have hd1_find_n : d1.find n = some nd := by rw [hd1_find_ne n hne, hnd]
    have hedoc : e ∉ d1.doc := by
      rw [hd1_doc]
      intro hmem
      exact absurd (hwf.2 e hmem) (by omega)
    set d2 := d1.appendChildD n e with hd2_def
    have hd2_find_e : d2.find e = some { fresh with parent := some n } :=
      Dom.appendChild_find_child d1 n e nd fresh hd1_find_n hd1_find_e rfl hedoc hne
    have hd2_find_n : d2.find n = some { nd with children := nd.children ++ [e] } :=
      Dom.appendChild_find_parent d1 n e nd fresh hd1_find_n hd1_find_e rfl hedoc hne
    have hd2_find_other : ∀ j, j ≠ n → j ≠ e → d2.find j = d.find j := by
      intro j hj1 hj2
      rw [Dom.appendChild_find_other d1 n e j nd fresh hd1_find_n hd1_find_e rfl hedoc hne hj1 hj2]
      exact hd1_find_ne j hj2
    have hd2_nextId : d2.nextId = d.nextId + 1 := by
      rw [hd2_def, Dom.appendChild_nextId, hd1_nextId]
    have hd2_wf : d2.wf :=
      Dom.appendChild_wf d1 n e nd fresh hd1_find_n hd1_find_e rfl hedoc hne hd1_wf
    have hlive2 : ∀ m ∈ rest, (d2.find m).isSome = true := by
      intro m hm
      by_cases hmn : m = n
      · rw [hmn, hd2_find_n]; rfl
      · obtain ⟨md, hmd⟩ := Option.isSome_iff_exists.mp (hlive m (by simp [hm]))
        have hmlt : m < d.nextId := Dom.find_lt_of_wf d m md hwf hmd
        rw [hd2_find_other m hmn (Nat.ne_of_lt hmlt), hmd]
        rfl
    obtain ⟨ih1, ih2, ih3, ih4, ih5⟩ := ih d2 hd2_wf hlive2
    -- unfold one step of the loop
    have hstep : appendLoop tag (n :: rest) d =
        (e :: (appendLoop tag rest d2).1, (appendLoop tag rest d2).2) := by
      simp [appendLoop, hnd, hd1_def, hd2_def, Dom.createElem]
    rw [hstep]
    refine ⟨?_, ?_, ih3, ?_, ?_⟩
    · simp only [ih1, hd2_nextId, List.length_cons]
      rw [List.range'_succ]
    · simp only [ih2, hd2_nextId, List.length_cons]
      omega
    · -- frame property
      intro j jnd hj
      have hjlt : j < d.nextId := Dom.find_lt_of_wf d j jnd hwf hj
      by_cases hjn : j = n
      · have hjnd : jnd = nd := by
          rw [hjn, hnd] at hj
          exact (Option.some_inj.mp hj).symm
        obtain ⟨extra2, hextra2⟩ := ih4 n { nd with children := nd.children ++ [e] } hd2_find_n
        refine ⟨[e] ++ extra2, ?_⟩
        rw [hjn, hjnd]
        simpa [List.append_assoc] using hextra2
      · obtain ⟨extra2, hextra2⟩ := ih4 j jnd
          (by rw [hd2_find_other j hjn (Nat.ne_of_lt hjlt)]; exact hj)
        exact ⟨extra2, hextra2⟩
    · -- per-index property
      intro i hi
      match i with
      | 0 =>
        constructor
        · obtain ⟨extra2, hextra2⟩ := ih4 e { fresh with parent := some n } hd2_find_e
          refine ⟨_, by simpa using hextra2, rfl, ?_, rfl⟩
          simp [hnd]
        · obtain ⟨extra2, hextra2⟩ := ih4 n { nd with children := nd.children ++ [e] } hd2_find_n
          refine ⟨_, by simpa using hextra2, ?_⟩
          simp
      | i' + 1 =>
        have hi' : i' < rest.length := by simpa using hi
        obtain ⟨⟨nnd, hfind, htag, hsvg, hparent⟩, ⟨pnd, hpfind, hpmem⟩⟩ := ih5 i' hi'
        have hidx : d2.nextId + i' = d.nextId + (i' + 1) := by omega
        have hget : (n :: rest).get ⟨i' + 1, hi⟩ = rest.get ⟨i', hi'⟩ := rfl
        constructor
        · refine ⟨nnd, by rw [← hidx]; exact hfind, htag, ?_, by rw [hget]; exact hparent⟩
          rw [hget]
          rw [hsvg]
          set m := rest.get ⟨i', hi'⟩ with hm_def
          by_cases hmn : m = n
          · rw [hmn, hd2_find_n, hnd]
            rfl
          · obtain ⟨md, hmd⟩ := Option.isSome_iff_exists.mp
              (hlive m (by rw [hm_def]; exact List.mem_cons_of_mem n (rest.get_mem _ _)))
            have hmlt : m < d.nextId := Dom.find_lt_of_wf d m md hwf hmd
            rw [hd2_find_other m hmn (Nat.ne_of_lt hmlt)]
        · exact ⟨pnd, by rw [hget]; exact hpfind, by rw [← hidx]; exact hpmem⟩

theorem constructS_divTpl (st : St) :
    constructS divTpl st = .ok
      (⟨st.nextElym, st.dom.nextId, [st.dom.nextId], [], []⟩,
       ⟨⟨(st.dom.nextId, ⟨"div", false, [], "", [], none, []⟩) :: st.dom.store,
         st.dom.nextId + 1, st.dom.doc⟩,
        aset st.instances st.dom.nextId st.nextElym, st.nextElym + 1⟩) := by
  simp [constructS, createFromTemplate, divTpl, instantiateT, instantiateList, Dom.find, alookup]

theorem fromElementS_cons (e0 : Nat) (es : List Nat) (st : St) :
    fromElementS (e0 :: es) st = .ok
      (⟨st.nextElym, e0, e0 :: es, [], []⟩,
       ⟨⟨(st.dom.nextId, ⟨"div", false, [], "", [], none, []⟩) :: st.dom.store,
         st.dom.nextId + 1, st.dom.doc⟩,
        (e0 :: es).foldl (fun m n => aset m n st.nextElym)
          (aset st.instances st.dom.nextId st.nextElym),
        st.nextElym + 1⟩) := by
  simp [fromElementS, constructS_divTpl]

/-- Claim C9 (amended): for every wrapper whose selection is NONEMPTY and
live, append(tagName) creates exactly one new element per selected node
(SVG-namespaced exactly when that node is an SVG element), appends each as
a child of its corresponding selected node, and returns a new wrapper
instance (a fresh identity, not the receiver) whose selection is exactly
the new elements in order.  (On an empty selection append instead fails
with the InvalidArgument of fromElement; see the counterexample.) -/
theorem elym_C9_append_per_node_spec (st : St) (w : ElymState) (tag : String)
    (hwf : st.dom.wf)
    (hlive : ∀ n ∈ w.nodes, (st.dom.find n).isSome = true)
    (hne : w.nodes ≠ [])
    (hid : w.id < st.nextElym) :
    ∃ w' st', appendOp w tag st = .ok (w', st') ∧
      w'.id ≠ w.id ∧
      w'.nodes = List.range' st.dom.nextId w.nodes.length ∧
      w'.nodes.length = w.nodes.length ∧
      (∀ i, (hi : i < w.nodes.length) →
        ∃ nnd pnd,
          st'.dom.find (st.dom.nextId + i) = some nnd ∧
          nnd.tag = tag ∧
          nnd.isSVG = ((st.dom.find (w.nodes.get ⟨i, hi⟩)).map DNode.isSVG).getD false ∧
          nnd.parent = some (w.nodes.get ⟨i, hi⟩) ∧
          st'.dom.find (w.nodes.get ⟨i, hi⟩) = some pnd ∧
          (st.dom.nextId + i) ∈ pnd.children) := by
  obtain ⟨h1, h2, h3, h4, h5⟩ := appendLoop_spec tag w.nodes st.dom hwf hlive
  set P := appendLoop tag w.nodes st.dom with hP_def
  have hlen : 0 < w.nodes.length := List.length_pos.mpr hne
  have hes : P.1 = st.dom.nextId :: List.range' (st.dom.nextId + 1) (w.nodes.length - 1) := by
    rw [h1]
    cases hn : w.nodes.length with
    | zero => omega
    | succ k => rw [List.range'_succ]; simp
  have happ : appendOp w tag st = fromElementS P.1 { st with dom := P.2 } := by
    simp [appendOp, hP_def]
  rw [happ, hes, fromElementS_cons]
  refine ⟨_, _, rfl, ?_, ?_, ?_, ?_⟩
  · simp
    omega
  · simp only [← hes, h1]
  · simp only [← hes, h1, List.length_range']
  · intro i hi
    obtain ⟨⟨nnd, hfind, htag, hsvg, hparent⟩, ⟨pnd, hpfind, hpmem⟩⟩ := h5 i hi
    have hplt : ∀ m ∈ w.nodes, m < st.dom.nextId := by
      intro m hm
      obtain ⟨md, hmd⟩ := Option.isSome_iff_exists.mp (hlive m hm)
      exact Dom.find_lt_of_wf st.dom m md hwf hmd
    have hmlt : w.nodes.get ⟨i, hi⟩ < st.dom.nextId := hplt _ (w.nodes.get_mem _ _)
    have hkey1 : st.dom.nextId + i ≠ ({ st with dom := P.2 } : St).dom.nextId := by
      simp only [h2]
      omega
    have hkey2 : w.nodes.get ⟨i, hi⟩ ≠ ({ st with dom := P.2 } : St).dom.nextId := by
      simp only [h2]
      omega
    refine ⟨nnd, pnd, ?_, htag, hsvg, hparent, ?_, hpmem⟩
    · show Dom.find _ _ = _
      rw [show ({ st with dom := P.2 } : St).dom = P.2 from rfl] at hkey1
      simp only [Dom.find]
      rw [alookup_cons_ne _ _ _ _ (by simpa using (Ne.symm hkey1))]
      exact hfind
    · show Dom.find _ _ = _
      rw [show ({ st with dom := P.2 } : St).dom = P.2 from rfl] at hkey2
      simp only [Dom.find]
      rw [alookup_cons_ne _ _ _ _ (by simpa using (Ne.symm hkey2))]
      exact hpfind

/-- Claim C5 (amended): when the root-subtree query matches nothing,
selectChild leaves the current selection unchanged, but selectChildren
replaces the selection with the empty match list, CLEARING the selection
(the source has no emptiness guard in selectChildren). -/
theorem elym_C5_selectChildren_clears (d : Dom) (w : ElymState) (sel : String)
    (h : querySubtree d w.root sel = []) :
    selectChildOp w d sel = w ∧ selectChildrenOp w d sel = { w with nodes := [] } := by
  constructor
  · simp [selectChildOp, h]
  · simp [selectChildrenOp, h]

/-- Claim C6 (amended): the three named entry points fail exactly as
claimed -- createFromTemplate exactly when the markup yields no valid root
element (ParseError), fromElement exactly on zero elements
(InvalidArgument), select exactly when the document query is empty
(NotFound) -- but they are not the only failure points: selectAll also
fails when the document query is empty (it forwards the empty match list
to fromElement and inherits its InvalidArgument), append fails with that
same InvalidArgument whenever the current selection is empty, and clone
fails with a host TypeError on a reachable multi-node selection carrying a
listener beyond the first node (it pairs this._nodes positionally against
the clone single-node selection).  So the original census of exactly three
failing operations, with every other operation total, is false. -/
theorem elym_C6_failure_surface :
    (∀ (tpl : Template) (d : Dom), (createFromTemplate tpl d).isOk = templateValid tpl) ∧
    (∀ st : St, fromElementS [] st =
      .error (.invalidArgument "At least one element must be provided")) ∧
    (∀ (els : List Nat) (st : St), els ≠ [] → (fromElementS els st).isOk = true) ∧
    (∀ (sel : String) (st : St), docQuery st.dom sel = [] →
      selectS sel st = .error (.notFound ("No element found for selector: " ++ sel))) ∧
    (∀ (sel : String) (st : St), docQuery st.dom sel ≠ [] → (selectS sel st).isOk = true) ∧
    (∀ (sel : String) (st : St), docQuery st.dom sel = [] →
      selectAllS sel st = .error (.invalidArgument "At least one element must be provided")) ∧
    (∀ (sel : String) (st : St), docQuery st.dom sel ≠ [] → (selectAllS sel st).isOk = true) ∧
    (∀ (w : ElymState) (st : St) (tag : String), w.nodes = [] →
      appendOp w tag st = .error (.invalidArgument "At least one element must be provided")) ∧
    (∃ w st1, selectAllS "div" stAB = .ok (w, st1) ∧
      (let p := onOp w st1.dom "click" 7 false
       cloneOp p.1 { st1 with dom := p.2 } =
         .error (.typeError "Cannot read properties of undefined"))) := by
  refine ⟨?_, ?_, ?_, ?_, ?_, ?_, ?_, ?_, ?_⟩
  · intro tpl d
    cases tpl with
    | svgT o =>
      cases o with
      | none => rfl
      | some t =>
        by_cases h : t.tagOf = "svg" <;>
          simp [createFromTemplate, templateValid, h, Except.isOk, Except.toBool]
    | htmlT o =>
      cases o with
      | none => rfl
      | some t => rfl
  · intro st
    rfl
  · intro els st h
    cases els with
    | nil => exact absurd rfl h
    | cons e0 es => rw [fromElementS_cons]; rfl
  · intro sel st h
    simp [selectS, h]
  · intro sel st h
    rcases hq : docQuery st.dom sel with _ | ⟨e, es⟩
    · exact absurd hq h
    · simp [selectS, hq, fromElementS_cons]
      rfl
  · intro sel st h
    simp [selectAllS, h]
    rfl
  · intro sel st h
    rcases hq : docQuery st.dom sel with _ | ⟨e, es⟩
    · exact absurd hq h
    · simp [selectAllS, hq, fromElementS_cons]
      rfl
  · intro w st tag h
    simp [appendOp, h, appendLoop, fromElementS]
  · exact ⟨⟨0, 0, [0, 1], [], []⟩,
      ⟨⟨(2, ⟨"div", false, [], "", [], none, []⟩) :: domAB.store, 3, [0, 1]⟩,
       [(2, 0), (0, 0), (1, 0)], 1⟩,
      by decide, by decide⟩

/-- Claim C8 (amended): html() with no argument returns the concatenation
of the innerHTML of EVERY node in the current selection (so it reads the
first node only when the selection is a singleton), and on an empty
selection it returns the empty string rather than failing. -/
theorem elym_C8_html_joins_all_nodes :
    (∀ (w : ElymState) (d : Dom) (n : Nat), w.nodes = [n] → htmlGet w d = innerHTMLOf d n) ∧
    (∀ (w : ElymState) (d : Dom), w.nodes = [] → htmlGet w d = "") := by
  constructor
  · intro w d n h
    simp [htmlGet, h, String.join]
  · intro w d h
    simp [htmlGet, h, String.join]

/-- Claim C10: nodes() allocates a fresh array holding a copy of the
current selection: the returned reference differs from the internal one,
its contents equal the selection, the internal array is untouched by the
call, and any mutation through the returned reference leaves the internal
selection (read by all subsequent operations) unchanged. -/
theorem elym_C10_nodes_returns_copy (h : ArrayHeap) (r : Nat) (hr : r < h.next) :
    (nodesAllocOp h r).1 ≠ r ∧
    heapGet (nodesAllocOp h r).2 (nodesAllocOp h r).1 = heapGet h r ∧
    heapGet (nodesAllocOp h r).2 r = heapGet h r ∧
    (∀ v, heapGet (heapSet (nodesAllocOp h r).2 (nodesAllocOp h r).1 v) r = heapGet h r) := by
  have hne : h.next ≠ r := by omega
  refine ⟨by simp only [nodesAllocOp]; omega, ?_, ?_, ?_⟩
  · simp [nodesAllocOp, heapGet, alookup]
  · simp [nodesAllocOp, heapGet, alookup, hne]
  · intro v
    simp [nodesAllocOp, heapGet, heapSet, aset, alookup, hne]
/-- Claim C1 (code-bug evidence): the listener-registry invariant is broken
by remove.  After on("click.ns", cb) followed by remove(), the registry
entry for the node is deleted and the node is deregistered, but the native
"click" listener is STILL attached (dispatching "click" still invokes cb),
because remove passes the registry key "click.ns" -- not the bare type
"click" -- to removeEventListener (elym.ts:774).  The claim, and the doc
comment of remove in the source, require the native listener to be
detached. -/
theorem elym_C1_remove_keeps_native_listener :
    (let p1 := onOp wDiv domDiv "click.ns" 7 false
     let p2 := removeOp p1.1 { stDiv with dom := p1.2 }
     alookup p2.1.eventListeners 0 = none ∧
     getInstanceS p2.2 0 = none ∧
     dispatched p2.2.dom 0 "click" = [7]) := by decide

/-- Claim C2 witness: the off semantics at the concrete click/ns scenario. -/
theorem elym_C2_witness :
    (let p1 := onOp wDiv domDiv ("click" ++ "." ++ "ns") 7 false
     let pA := offOp p1.1 p1.2 "click"
     pA = p1 ∧
     alookup pA.1.eventListeners 0 = some [("click" ++ "." ++ "ns", [7])] ∧
     7 ∈ dispatched pA.2 0 "click") ∧
    (let p1 := onOp wDiv domDiv ("click" ++ "." ++ "ns") 7 false
     let pB := offOp p1.1 p1.2 ("click" ++ "." ++ "ns")
     alookup pB.1.eventListeners 0 = some [] ∧
     7 ∉ dispatched pB.2 0 "click") ∧
    (∀ ev, offOp wDiv domDiv ev = (wDiv, domDiv)) :=
  elym_C2_off_bare_vs_namespaced domDiv wDiv 0 ⟨"div", false, [], "", [], none, []⟩
    "click" "ns" 7 rfl rfl (by decide) (by intro c; simp) (by decide) (by decide) (by decide)

/-- Claim C3 (code-bug evidence): clone reproduces the serialized markup and
copies the registry verbatim, but re-attaches the callback with the
registry key "click.ns" as the native event TYPE (elym.ts:811), so
dispatching the previously registered type "click" on the clone invokes
nothing -- the same callback would only fire for a literal "click.ns"
event.  The claim, the spec (section 8) and the doc comment of clone
require dispatch of the registered type on the clone to invoke cb. -/
theorem elym_C3_clone_listener_divergence :
    (let p1 := onOp wDiv domDiv "click.ns" 7 false
     ∃ c st', cloneOp p1.1 { stDiv with dom := p1.2 } = .ok (c, st') ∧
       outerHTMLOf st'.dom c.root = outerHTMLOf st'.dom wDiv.root ∧
       alookup c.eventListeners c.root = some [("click.ns", [7])] ∧
       dispatched st'.dom c.root "click" = [] ∧
       dispatched st'.dom c.root "click.ns" = [7]) := by
  exact ⟨⟨1, 1, [1], [(1, [("click.ns", [7])])], []⟩,
    ⟨⟨[(1, ⟨"div", false, [], "", [], none, [("click.ns", false, 7)]⟩),
       (0, ⟨"div", false, [], "", [], none, [("click", false, 7)]⟩)], 2, []⟩,
     [(0, 0), (1, 1)], 2⟩,
    by decide, by decide, by decide, by decide, by decide⟩

/-- Claim C4 (code-bug evidence): after data binding and remove(), the node
is detached from its parent and its instance-registry entry is gone, but
getData still returns the bound value -- remove never deletes from the data
registry (elym.ts:768-783 touches only the listener registry and
Elym.instances), although its doc comment says it removes the bound data
and the claim requires getData to return undefined. -/
theorem elym_C4_remove_keeps_data :
    (let w2 := dataOp wP [42]
     let p := removeOp w2 stP
     getDataOp p.1 0 = some 42 ∧
     getInstanceS p.2 0 = none ∧
     (p.2.dom.find 0).map DNode.parent = some none ∧
     (p.2.dom.find 1).map DNode.children = some []) := by decide

/-- Claim C5 counterexample: on the single detached div, the selector p
matches nothing, selectChild indeed leaves the selection unchanged, but
selectChildren CLEARS it -- so the claim that both leave the selection
unchanged is false. -/
theorem elym_C5_counterexample :
    querySubtree domDiv wDiv.root "p" = [] ∧
    selectChildOp wDiv domDiv "p" = wDiv ∧
    (selectChildrenOp wDiv domDiv "p").nodes = [] ∧
    (selectChildrenOp wDiv domDiv "p").nodes ≠ wDiv.nodes := by decide

/-- Claim C5 witness: the amended behavior at the concrete scenario. -/
theorem elym_C5_witness :
    selectChildOp wDiv domDiv "p" = wDiv ∧
    selectChildrenOp wDiv domDiv "p" = { wDiv with nodes := [] } :=
  elym_C5_selectChildren_clears domDiv wDiv "p" (by decide)

/-- Claim C6 counterexample: on an empty document, selectAll("p") throws --
it forwards the empty match list to fromElement, whose zero-element check
raises InvalidArgument -- contradicting the claim that selectAll with no
match does not throw. -/
theorem elym_C6_counterexample :
    docQuery st0.dom "p" = [] ∧
    selectAllS "p" st0 = .error (.invalidArgument "At least one element must be provided") := by
  decide

/-- Claim C6 witness: the failure surface at concrete inputs. -/
theorem elym_C6_witness :
    (createFromTemplate (Template.htmlT none) domDiv).isOk = templateValid (Template.htmlT none) ∧
    fromElementS [] stDiv = .error (.invalidArgument "At least one element must be provided") ∧
    (fromElementS [0] stDiv).isOk = true ∧
    selectS "p" stDiv = .error (.notFound ("No element found for selector: " ++ "p")) ∧
    (selectS "div" stAB).isOk = true ∧
    selectAllS "p" stDiv = .error (.invalidArgument "At least one element must be provided") ∧
    (selectAllS "div" stAB).isOk = true ∧
    appendOp ⟨0, 0, [], [], []⟩ "span" stDiv =
      .error (.invalidArgument "At least one element must be provided") :=
  ⟨elym_C6_failure_surface.1 (Template.htmlT none) domDiv,
   elym_C6_failure_surface.2.1 stDiv,
   elym_C6_failure_surface.2.2.1 [0] stDiv (by decide),
   elym_C6_failure_surface.2.2.2.1 "p" stDiv (by decide),
   elym_C6_failure_surface.2.2.2.2.1 "div" stAB (by decide),
   elym_C6_failure_surface.2.2.2.2.2.1 "p" stDiv (by decide),
   elym_C6_failure_surface.2.2.2.2.2.2.1 "div" stAB (by decide),
   elym_C6_failure_surface.2.2.2.2.2.2.2.1 ⟨0, 0, [], [], []⟩ stDiv "span" rfl⟩

/-- Claim C7 (code-bug evidence): text("") does not set the text content.
After setting the content to abc, a call with the empty string takes the
getter branch -- the implementation tests JS truthiness (if (!value)), and
the empty string is falsy -- returning the string abc instead of the
wrapper, and leaving the text content abc instead of clearing it.  The
declared overload text(value: string): this, and the claim, promise setter
behavior for every string argument. -/
theorem elym_C7_text_empty_string_is_getter :
    (let d1 := (textOp wDiv domDiv (some "abc")).2
     textOp wDiv d1 (some "") = (Sum.inl "abc", d1) ∧
     textContentOf (textOp wDiv d1 (some "")).2 0 = "abc") := by decide

/-- Claim C8 counterexample: a two-div selection obtained from selectAll,
with innerHTML a and b: html() returns the join ab of BOTH nodes, not the
first node content a as the claim states. -/
theorem elym_C8_counterexample :
    (∃ w st', selectAllS "div" stAB = .ok (w, st') ∧ w.nodes.head? = some 0 ∧
      htmlGet w st'.dom = "ab" ∧ innerHTMLOf st'.dom 0 = "a" ∧
      htmlGet w st'.dom ≠ innerHTMLOf st'.dom 0) := by
  exact ⟨⟨0, 0, [0, 1], [], []⟩,
    ⟨⟨(2, ⟨"div", false, [], "", [], none, []⟩) :: domAB.store, 3, [0, 1]⟩,
     [(2, 0), (0, 0), (1, 0)], 1⟩,
    by decide, by decide, by decide, by decide, by decide⟩

/-- Claim C8 witness: the amended getter contract at concrete scenarios. -/
theorem elym_C8_witness :
    htmlGet wDiv domDiv = innerHTMLOf domDiv 0 ∧
    htmlGet ⟨0, 0, [], [], []⟩ domDiv = "" :=
  ⟨elym_C8_html_joins_all_nodes.1 wDiv domDiv 0 rfl,
   elym_C8_html_joins_all_nodes.2 ⟨0, 0, [], [], []⟩ domDiv rfl⟩

/-- Claim C9 counterexample: a wrapper whose selection was cleared by a
matchless selectChildren has n = 0 selected nodes, and append then fails
with the InvalidArgument of fromElement instead of returning a new wrapper
over zero new elements. -/
theorem elym_C9_counterexample :
    (let wEmpty := selectChildrenOp wDiv domDiv "p"
     wEmpty.nodes = [] ∧
     appendOp wEmpty "span" stDiv =
       .error (.invalidArgument "At least one element must be provided")) := by decide

/-- Claim C9 witness: append("span") on the single-div wrapper. -/
theorem elym_C9_witness :
    ∃ w' st', appendOp wDiv "span" stDiv = .ok (w', st') ∧
      w'.id ≠ wDiv.id ∧
      w'.nodes = List.range' stDiv.dom.nextId wDiv.nodes.length ∧
      w'.nodes.length = wDiv.nodes.length ∧
      (∀ i, (hi : i < wDiv.nodes.length) →
        ∃ nnd pnd,
          st'.dom.find (stDiv.dom.nextId + i) = some nnd ∧
          nnd.tag = "span" ∧
          nnd.isSVG = ((stDiv.dom.find (wDiv.nodes.get ⟨i, hi⟩)).map DNode.isSVG).getD false ∧
          nnd.parent = some (wDiv.nodes.get ⟨i, hi⟩) ∧
          st'.dom.find (wDiv.nodes.get ⟨i, hi⟩) = some pnd ∧
          (stDiv.dom.nextId + i) ∈ pnd.children) :=
  elym_C9_append_per_node_spec stDiv wDiv "span" ⟨by decide, by decide⟩
    (by decide) (by decide) (by decide)

/-- Claim C10 witness: a one-cell heap holding the selection. -/
theorem elym_C10_witness :
    (nodesAllocOp ⟨[(0, [5])], 1⟩ 0).1 ≠ 0 ∧
    heapGet (nodesAllocOp ⟨[(0, [5])], 1⟩ 0).2 (nodesAllocOp ⟨[(0, [5])], 1⟩ 0).1 =
      heapGet ⟨[(0, [5])], 1⟩ 0 ∧
    heapGet (nodesAllocOp ⟨[(0, [5])], 1⟩ 0).2 0 = heapGet ⟨[(0, [5])], 1⟩ 0 ∧
    (∀ v, heapGet (heapSet (nodesAllocOp ⟨[(0, [5])], 1⟩ 0).2
      (nodesAllocOp ⟨[(0, [5])], 1⟩ 0).1 v) 0 = heapGet ⟨[(0, [5])], 1⟩ 0) :=
  elym_C10_nodes_returns_copy ⟨[(0, [5])], 1⟩ 0 (by decide)
